import Mathlib

/-!
Verification of the ProLens browser application's data layer.

The definitions below are a shallow embedding of the repository's
storage-facing code:

* `FlagStore` models the browser's key-value flag store (`localStorage`),
  as an association list read through `getItem` (first match) and written
  through `setItem` (replace the key's binding).
* `dbPut`, `presPut` model IndexedDB `put` (insert-or-replace keyed by
  `id`) on the `materials` and `presentations` object stores.
* `handleExport` / `handleImportFlags` / `handleImportMaterials` embed the
  student sync modal's export and import handlers; `handleImportBackupFlags`
  / `handleImportBackupMaterials` embed the admin dashboard's backup
  restore handler.  A bundle field holds `none` where the JSON field is
  absent or `null`; the JavaScript `if (syncData.field)` truthiness test on
  a string field is `condSet` (a present but empty string is falsy).
* `processFiles`, `removeMaterial`, `markMaterialsAsAnalyzed` embed the
  LearningBox write paths.  Effects against the Cloud Mirror are reified
  as a `CloudOp` trace; the timestamp-based id and the storage-assigned
  download URL are passed in as functions (`idOf`, `urlOf`) since they are
  produced outside the function.
* `deleteMaterialFromCloud` embeds the firebase service's delete routine
  over an abstract cloud state (document records plus blob keys) with an
  explicit failure flag for the blob delete, a log, and an event trace.
-/

structure LearningMaterial where
  id : String
  type : String
  name : String
  content : String
  mimeType : String
  isAnalyzed : Bool
deriving Repr, DecidableEq

structure PresentationDoc where
  id : String
  name : String
  type : String
  date : String
  content : String
deriving Repr, DecidableEq

structure Registration where
  id : String
  date : String
  fullName : String
  email : String
  phone : String
  level : String
  status : String
deriving Repr, DecidableEq

/-- A file handed to an upload path: browser `File` metadata plus the
base64 payload that `readFileAsBase64` would produce. -/
structure MFile where
  name : String
  type : String
  size : Nat
  data : String
deriving Repr, DecidableEq

/-! ## Key-Value Flag Store (localStorage) -/

abbrev FlagStore := List (String × String)

def getItem : FlagStore → String → Option String
  | [], _ => none
  | p :: rest, k => if p.1 = k then some p.2 else getItem rest k

def setItem (flags : FlagStore) (k v : String) : FlagStore :=
  flags.filter (fun p => p.1 ≠ k) ++ [(k, v)]

/-- `condSet flags k v` is the import pattern
`if (bundle.field) localStorage.setItem(k, bundle.field)`:
the write happens only when the field is present and truthy
(a non-empty string). -/
def condSet (flags : FlagStore) (k : String) (v : Option String) : FlagStore :=
  match v with
  | some s => if s ≠ "" then setItem flags k s else flags
  | none => flags

/-! ## Local Document Store (IndexedDB object stores keyed by `id`) -/

def dbPut (s : List LearningMaterial) (m : LearningMaterial) : List LearningMaterial :=
  if s.any (fun x => x.id = m.id) then s.map (fun x => if x.id = m.id then m else x)
  else s ++ [m]

def presPut (s : List PresentationDoc) (d : PresentationDoc) : List PresentationDoc :=
  if s.any (fun x => x.id = d.id) then s.map (fun x => if x.id = d.id then d else x)
  else s ++ [d]

/-! ## Cloud Mirror effects -/

/-- Payload of `addMaterialToCloud` (a material without an id; Firestore
assigns the id and a server `createdAt`). -/
structure CloudMaterialData where
  name : String
  type : String
  content : String
  mimeType : String
  isAnalyzed : Bool
deriving Repr, DecidableEq

inductive CloudOp where
  | uploadBlob (f : MFile)
  | addDoc (d : CloudMaterialData)
  | deleteDoc (id : String) (url : String)
  | updateFlag (id : String) (isAnalyzed : Bool)
deriving Repr, DecidableEq

/-! ## LearningBox write paths -/

/-- Mirrors the `file.type.startsWith('image/') ? 'image' : ...` chain
used by `processFiles`. -/
def fileKind (mime : String) : String :=
  if mime.startsWith "image/" then "image"
  else if mime.startsWith "audio/" then "audio"
  else if mime.startsWith "video/" then "video"
  else "text"

def sizeLimitMsg (name : String) : String :=
  "הקובץ " ++ name ++ " גדול מדי לשמירה מקומית (מקסימום 15MB). חבר ענן להעלאת קבצים גדולים."

structure ProcessResult where
  store : List LearningMaterial
  newMaterials : List LearningMaterial
  cloudOps : List CloudOp
  alerts : List String
deriving Repr, DecidableEq

/-- One iteration of the `for (const file of files)` loop in
`processFiles`.  In cloud mode it uploads the blob and adds a document
(no size check); in local mode files above 15MB are rejected with an
alert and skipped (`continue`), otherwise the base64-encoded material is
`put` into the local store. -/
def processOneFile (configured : Bool) (urlOf idOf : MFile → String)
    (acc : ProcessResult) (f : MFile) : ProcessResult :=
  if configured then
    let d : CloudMaterialData :=
      ⟨f.name, fileKind f.type, urlOf f, f.type, false⟩
    let m : LearningMaterial :=
      ⟨"temp_" ++ idOf f, fileKind f.type, f.name, urlOf f, f.type, false⟩
    { acc with
      cloudOps := acc.cloudOps ++ [CloudOp.uploadBlob f, CloudOp.addDoc d],
      newMaterials := acc.newMaterials ++ [m] }
  else
    if f.size > 15 * 1024 * 1024 then
      { acc with alerts := acc.alerts ++ [sizeLimitMsg f.name] }
    else
      let m : LearningMaterial :=
        ⟨idOf f, fileKind f.type, f.name, f.data, f.type, false⟩
      { acc with
        store := dbPut acc.store m,
        newMaterials := acc.newMaterials ++ [m] }

def processFiles (configured : Bool) (urlOf idOf : MFile → String)
    (store : List LearningMaterial) (files : List MFile) : ProcessResult :=
  files.foldl (processOneFile configured urlOf idOf) ⟨store, [], [], []⟩

/-- `removeMaterial` from the LearningBox: after the user confirms, the
cloud branch issues `deleteMaterialFromCloud` and the local branch deletes
from IndexedDB only. -/
def removeMaterial (configured confirm : Bool) (store : List LearningMaterial)
    (id url : String) : List LearningMaterial × List CloudOp :=
  if confirm then
    if configured then (store, [CloudOp.deleteDoc id url])
    else (store.filter (fun m => m.id ≠ id), [])
  else (store, [])

def mkAnalyzed (m : LearningMaterial) : LearningMaterial :=
  { m with isAnalyzed := true }

/-- Cloud branch of `markMaterialsAsAnalyzed`: one `updateMaterialAnalysis
(m.id, true)` per not-yet-analyzed material. -/
def markAnalyzedCloudOps (toMark : List LearningMaterial) : List CloudOp :=
  (toMark.filter (fun m => !m.isAnalyzed)).map (fun m => CloudOp.updateFlag m.id true)

/-- Local branch, React-state side: `materials.map` setting
`isAnalyzed: true` on every member of `materialsToMark` (matched by id). -/
def markAnalyzedState (store toMark : List LearningMaterial) : List LearningMaterial :=
  store.map (fun m => if toMark.any (fun tm => tm.id = m.id) then mkAnalyzed m else m)

/-- Local branch, IndexedDB side: `saveMaterialToLocalDB({...m, isAnalyzed:
true})` for each marked material. -/
def markAnalyzedDB (db toMark : List LearningMaterial) : List LearningMaterial :=
  toMark.foldl (fun s m => dbPut s (mkAnalyzed m)) db

def markMaterialsAsAnalyzed (configured : Bool) (store db toMark : List LearningMaterial) :
    (List LearningMaterial × List LearningMaterial) × List CloudOp :=
  if configured then ((store, db), markAnalyzedCloudOps toMark)
  else ((markAnalyzedState store toMark, markAnalyzedDB db toMark), [])

/-! ## Sync / backup bundle codec -/

structure SyncBundle where
  profile : Option String
  messages : Option String
  completedTopics : Option String
  myRegistration : Option String
  materials : Option (List LearningMaterial)
deriving Repr, DecidableEq

structure BackupBundle where
  announcement : Option String
  messages : Option String
  completedTopics : Option String
  registrations : Option (List Registration)
  materials : Option (List LearningMaterial)
deriving Repr, DecidableEq

/-- `handleExport` of the student sync modal: reads the four tracked flag
keys and the full contents of the materials store. -/
def handleExport (flags : FlagStore) (store : List LearningMaterial) : SyncBundle :=
  { profile := getItem flags "prolens_student_profile"
    messages := getItem flags "prolens_messages"
    completedTopics := getItem flags "prolens_completed_topics"
    myRegistration := getItem flags "prolens_my_registration"
    materials := some store }

/-- Flag-store effect of `handleImport` (student sync): conditional writes
for the four bundle fields, then the unconditional
`localStorage.setItem('prolens_user_role', 'student')`. -/
def handleImportFlags (flags : FlagStore) (b : SyncBundle) : FlagStore :=
  setItem
    (condSet
      (condSet
        (condSet
          (condSet flags "prolens_student_profile" b.profile)
          "prolens_messages" b.messages)
        "prolens_completed_topics" b.completedTopics)
      "prolens_my_registration" b.myRegistration)
    "prolens_user_role" "student"

/-- Document-store effect of `handleImport`: `store.clear()` followed by
`store.put(item)` for each bundle material (absent or non-array
`materials` leaves the store cleared). -/
def handleImportMaterials (mats : Option (List LearningMaterial)) : List LearningMaterial :=
  (mats.getD []).foldl dbPut []

/-- JSON.stringify of one registration record, as the admin backup restore
stores the parsed `registrations` array back into the flag store. -/
def serializeReg (r : Registration) : String :=
  "\x7b\"id\":\"" ++ r.id ++ "\",\"date\":\"" ++ r.date ++ "\",\"fullName\":\"" ++ r.fullName ++
  "\",\"email\":\"" ++ r.email ++ "\",\"phone\":\"" ++ r.phone ++ "\",\"level\":\"" ++ r.level ++
  "\",\"status\":\"" ++ r.status ++ "\"\x7d"

def serializeRegs (rs : List Registration) : String :=
  "[" ++ String.intercalate "," (rs.map serializeReg) ++ "]"

/-- Flag-store effect of `handleImportBackup` (admin dashboard): three
conditional string writes plus the registrations write, which fires
whenever the field is present (a parsed JSON array is always truthy). -/
def handleImportBackupFlags (flags : FlagStore) (b : BackupBundle) : FlagStore :=
  match b.registrations with
  | some regs =>
      setItem
        (condSet
          (condSet
            (condSet flags "prolens_announcement" b.announcement)
            "prolens_messages" b.messages)
          "prolens_completed_topics" b.completedTopics)
        "prolens_registrations" (serializeRegs regs)
  | none =>
      condSet
        (condSet
          (condSet flags "prolens_announcement" b.announcement)
          "prolens_messages" b.messages)
        "prolens_completed_topics" b.completedTopics

/-- Document-store effect of `handleImportBackup`: identical
clear-then-put loop as the student sync import. -/
def handleImportBackupMaterials (mats : Option (List LearningMaterial)) : List LearningMaterial :=
  (mats.getD []).foldl dbPut []

/-- Whole-run model of the `reader.onload` body of `handleImport`.
`parsed` is the result of `JSON.parse` (`none` for malformed JSON, which
throws into the catch block before any write).  `putFails` says which
per-item `store.put` requests fail.  The `clear` and all `put`s share one
readwrite IndexedDB transaction: an unhandled request error aborts the
transaction, rolling back the clear and every put, and since the code
installs no `onerror`/`onabort` handler and does not await the put
requests, no alert fires and `tx.oncomplete` (which triggers the reload)
never runs.  Result: (flags, document store, alerts, reload fired). -/
def handleImportRun (flags : FlagStore) (store : List LearningMaterial)
    (parsed : Option SyncBundle) (putFails : LearningMaterial → Bool) :
    FlagStore × List LearningMaterial × List String × Bool :=
  match parsed with
  | none => (flags, store, ["קובץ הסנכרון אינו תקין."], false)
  | some b =>
      let fl := handleImportFlags flags b
      let mats := b.materials.getD []
      if mats.all (fun m => !putFails m) then
        (fl, mats.foldl dbPut [], ["הסנכרון הושלם בהצלחה! הדף ירוענן כעת."], true)
      else
        (fl, store, [], false)

/-! ## Registration list manager -/

def countPhone (regs : List Registration) (p : String) : Nat :=
  (regs.filter (fun r => r.phone = p)).length

/-- List effect of `handleRegistration` (self-registration path): the new
record is appended only when no existing record has an equal phone. -/
def handleRegistration (regs : List Registration) (newReg : Registration) :
    List Registration :=
  if regs.any (fun r => r.phone = newReg.phone) then regs else regs ++ [newReg]

/-- `addManualRegistration` (admin manual-entry path): only the
name/phone presence check, no dedup. -/
def addManualRegistration (regs : List Registration) (r : Registration) :
    List Registration :=
  if r.fullName = "" ∨ r.phone = "" then regs else regs ++ [r]

/-! ## Presentation upload path -/

/-- `handleFileChange` of the course presentation view: a 50MB hard cap,
otherwise the base64 document is `put` into the presentations store.
`now` is the `Date.now()` id, `today` the display date. -/
def presHandleFileChange (f : MFile) (now today : String)
    (store : List PresentationDoc) : List PresentationDoc × List String :=
  if f.size > 50 * 1024 * 1024 then
    (store, ["הקובץ גדול מדי (מקסימום 50MB למצגת)"])
  else
    (presPut store ⟨now, f.name, f.type, today, f.data⟩, [])

/-! ## Cloud delete -/

structure CloudDoc where
  id : String
  data : CloudMaterialData
deriving Repr, DecidableEq

structure CloudState where
  docs : List CloudDoc
  blobs : List String
deriving Repr, DecidableEq

def infixCheck (pat : List Char) : List Char → Bool
  | [] => pat.isEmpty
  | c :: rest => pat.isPrefixOf (c :: rest) || infixCheck pat rest

/-- `url.includes('firebasestorage')`. -/
def strContains (s pat : String) : Bool := infixCheck pat.toList s.toList

/-- `deleteMaterialFromCloud(id, fileUrl?)`: deletes the Firestore record
first; when the url points into object storage it tries `deleteObject`,
whose failure (`blobDeleteFails`) is caught and logged only.  Returns the
new cloud state, the console-error log, and the event trace in issue
order. -/
def deleteMaterialFromCloud (st : CloudState) (id : String) (fileUrl : Option String)
    (blobDeleteFails : Bool) : CloudState × List String × List String :=
  let docsAfter := st.docs.filter (fun d => d.id ≠ id)
  match fileUrl with
  | some url =>
      if strContains url "firebasestorage" then
        if blobDeleteFails then
          (⟨docsAfter, st.blobs⟩, ["Error deleting file from storage:"],
            ["deleteDoc " ++ id, "deleteObject " ++ url])
        else
          (⟨docsAfter, st.blobs.filter (fun b => b ≠ url)⟩, [],
            ["deleteDoc " ++ id, "deleteObject " ++ url])
      else (⟨docsAfter, st.blobs⟩, [], ["deleteDoc " ++ id])
  | none => (⟨docsAfter, st.blobs⟩, [], ["deleteDoc " ++ id])

/-! ## Flag-store lemmas -/

theorem setItem_cons (p : String × String) (rest : FlagStore) (k v : String) :
    setItem (p :: rest) k v =
      if p.1 = k then setItem rest k v else p :: setItem rest k v := by
  by_cases h : p.1 = k <;> simp [setItem, h]

theorem getItem_setItem_self (flags : FlagStore) (k v : String) :
    getItem (setItem flags k v) k = some v := by
  induction flags with
  | nil => simp [setItem, getItem]
  | cons p rest ih =>
      rw [setItem_cons]
      by_cases h : p.1 = k
      · simpa [h] using ih
      · simpa [getItem, h] using ih

theorem getItem_setItem_other (flags : FlagStore) (k v k2 : String) (h : k2 ≠ k) :
    getItem (setItem flags k v) k2 = getItem flags k2 := by
  induction flags with
  | nil =>
      have hk : ¬ (k = k2) := fun hh => h hh.symm
      simp [setItem, getItem, hk]
  | cons p rest ih =>
      rw [setItem_cons]
      by_cases hp : p.1 = k
      · have hk : ¬ (k = k2) := fun hh => h hh.symm
        simp [getItem, hp, hk, ih]
      · by_cases hp2 : p.1 = k2 <;> simp [getItem, hp, hp2, h, ih]

theorem getItem_condSet_other (flags : FlagStore) (k k2 : String) (v : Option String)
    (h : k2 ≠ k) : getItem (condSet flags k v) k2 = getItem flags k2 := by
  match v with
  | none => rfl
  | some s =>
      by_cases hs : s = ""
      · simp [condSet, hs]
      · simp [condSet, hs, getItem_setItem_other flags k s k2 h]

theorem getItem_condSet_roundtrip (flags : FlagStore) (k k2 : String) :
    getItem (condSet flags k (getItem flags k)) k2 = getItem flags k2 := by
  rcases hv : getItem flags k with _ | v
  · simp [condSet]
  · by_cases hs : v = ""
    · simp [condSet, hs]
    · by_cases hk : k2 = k
      · subst hk
        simp [condSet, hs, getItem_setItem_self, hv]
      · simp [condSet, hs, getItem_setItem_other flags k v k2 hk]

/-! ## Document-store lemmas -/

theorem foldl_dbPut_eq_append :
    ∀ (l acc : List LearningMaterial),
      ((acc ++ l).map (fun m => m.id)).Nodup → l.foldl dbPut acc = acc ++ l := by
  intro l
  induction l with
  | nil => intro acc _; simp
  | cons m rest ih =>
      intro acc hnd
      have hnd' : ((acc.map (fun x => x.id)) ++ m.id :: rest.map (fun x => x.id)).Nodup := by
        simpa using hnd
      have hdisj := List.disjoint_of_nodup_append hnd'
      have hnotin : m.id ∉ acc.map (fun x => x.id) := fun hmem =>
        hdisj hmem (by simp)
      have hany : acc.any (fun x => x.id = m.id) = false := by
        rw [List.any_eq_false]
        intro x hx he
        exact hnotin (by
          have : x.id = m.id := by simpa using he
          exact this ▸ List.mem_map_of_mem _ hx)
      have hput : dbPut acc m = acc ++ [m] := by simp [dbPut, hany]
      have h2 : (((acc ++ [m]) ++ rest).map (fun x => x.id)).Nodup := by
        simpa [List.append_assoc] using hnd
      calc (m :: rest).foldl dbPut acc
          = rest.foldl dbPut (dbPut acc m) := rfl
        _ = rest.foldl dbPut (acc ++ [m]) := by rw [hput]
        _ = (acc ++ [m]) ++ rest := ih _ h2
        _ = acc ++ m :: rest := by simp

theorem handleImportMaterials_eq (mats : List LearningMaterial)
    (h : (mats.map (fun m => m.id)).Nodup) :
    handleImportMaterials (some mats) = mats := by
  have := foldl_dbPut_eq_append mats [] (by simpa using h)
  simpa [handleImportMaterials] using this

theorem dbPut_any_self (s : List LearningMaterial) (m : LearningMaterial) :
    (dbPut s m).any (fun x => x.id = m.id) = true := by
  by_cases h : s.any (fun x => x.id = m.id)
  · rw [dbPut, if_pos h]
    rcases List.any_eq_true.mp h with ⟨x, hx, he⟩
    have hxid : x.id = m.id := of_decide_eq_true he
    refine List.any_eq_true.mpr ⟨m, ?_, by simp⟩
    exact List.mem_map.mpr ⟨x, hx, if_pos hxid⟩
  · rw [dbPut, if_neg h]
    refine List.any_eq_true.mpr ⟨m, by simp, by simp⟩

theorem dbPut_all_self (s : List LearningMaterial) (m : LearningMaterial) :
    ∀ x ∈ dbPut s m, x.id = m.id → x = m := by
  intro x hx hxid
  by_cases h : s.any (fun y => y.id = m.id)
  · rw [dbPut, if_pos h] at hx
    rcases List.mem_map.mp hx with ⟨y, hy, hyx⟩
    by_cases hyid : y.id = m.id
    · rw [if_pos hyid] at hyx; exact hyx.symm
    · rw [if_neg hyid] at hyx
      exact absurd (hyx ▸ hxid) hyid
  · rw [dbPut, if_neg h] at hx
    rcases List.mem_append.mp hx with hx | hx
    · have hfalse : s.any (fun y => y.id = m.id) = false := Bool.eq_false_iff.mpr h
      have := List.any_eq_false.mp hfalse x hx
      exact absurd hxid (by simpa using this)
    · simpa using hx

theorem dbPut_pres_any (s : List LearningMaterial) (y : LearningMaterial) (i : String)
    (hne : y.id ≠ i) (h : s.any (fun x => x.id = i) = true) :
    (dbPut s y).any (fun x => x.id = i) = true := by
  rcases List.any_eq_true.mp h with ⟨x, hx, he⟩
  have hxid : x.id = i := of_decide_eq_true he
  by_cases hc : s.any (fun z => z.id = y.id)
  · rw [dbPut, if_pos hc]
    have hxy : ¬ x.id = y.id := fun hh => hne (hh ▸ hxid : y.id = i)
    refine List.any_eq_true.mpr ⟨x, ?_, by simpa using hxid⟩
    have hfx : (if x.id = y.id then y else x) = x := if_neg hxy
    exact hfx ▸ List.mem_map_of_mem _ hx
  · rw [dbPut, if_neg hc]
    exact List.any_eq_true.mpr ⟨x, List.mem_append_left _ hx, by simpa using hxid⟩

theorem dbPut_pres_all (s : List LearningMaterial) (y : LearningMaterial) (i : String)
    (w : LearningMaterial) (hne : y.id ≠ i)
    (h : ∀ x ∈ s, x.id = i → x = w) :
    ∀ x ∈ dbPut s y, x.id = i → x = w := by
  intro x hx hxid
  by_cases hc : s.any (fun z => z.id = y.id)
  · rw [dbPut, if_pos hc] at hx
    rcases List.mem_map.mp hx with ⟨z, hz, hzx⟩
    by_cases hzid : z.id = y.id
    · rw [if_pos hzid] at hzx
      exact absurd (hzx ▸ hxid) hne
    · rw [if_neg hzid] at hzx
      exact h z hz (hzx ▸ hxid) ▸ hzx.symm ▸ rfl
  · rw [dbPut, if_neg hc] at hx
    rcases List.mem_append.mp hx with hx | hx
    · exact h x hx hxid
    · have : x = y := by simpa using hx
      exact absurd (this ▸ hxid) hne

theorem dbPut_absorb (s : List LearningMaterial) (m : LearningMaterial)
    (hany : s.any (fun x => x.id = m.id) = true)
    (hall : ∀ x ∈ s, x.id = m.id → x = m) : dbPut s m = s := by
  rw [dbPut, if_pos hany]
  have hcongr : ∀ x ∈ s, (if x.id = m.id then m else x) = x := by
    intro x hx
    by_cases hid : x.id = m.id
    · rw [if_pos hid]; exact (hall x hx hid).symm
    · exact if_neg hid
  calc s.map (fun x => if x.id = m.id then m else x) = s.map id :=
        List.map_congr_left hcongr
    _ = s := List.map_id s

theorem markAnalyzedDB_cons (db : List LearningMaterial) (m : LearningMaterial)
    (rest : List LearningMaterial) :
    markAnalyzedDB db (m :: rest) = markAnalyzedDB (dbPut db (mkAnalyzed m)) rest := rfl

theorem markAnalyzedDB_pres (i : String) (w : LearningMaterial) :
    ∀ (t : List LearningMaterial) (s : List LearningMaterial),
      (∀ y ∈ t, y.id ≠ i) →
      s.any (fun x => x.id = i) = true → (∀ x ∈ s, x.id = i → x = w) →
      ((markAnalyzedDB s t).any (fun x => x.id = i) = true ∧
        ∀ x ∈ markAnalyzedDB s t, x.id = i → x = w) := by
  intro t
  induction t with
  | nil => intro s _ h1 h2; exact ⟨h1, h2⟩
  | cons y rest ih =>
      intro s hy h1 h2
      have hyne : (mkAnalyzed y).id ≠ i := hy y (by simp)
      rw [markAnalyzedDB_cons]
      exact ih (dbPut s (mkAnalyzed y)) (fun z hz => hy z (by simp [hz]))
        (dbPut_pres_any s (mkAnalyzed y) i hyne h1)
        (dbPut_pres_all s (mkAnalyzed y) i w hyne h2)

theorem markAnalyzedDB_idem :
    ∀ (t : List LearningMaterial) (db : List LearningMaterial),
      ((t.map (fun m => m.id)).Nodup) →
      markAnalyzedDB (markAnalyzedDB db t) t = markAnalyzedDB db t := by
  intro t
  induction t with
  | nil => intro db _; rfl
  | cons m rest ih =>
      intro db hnd
      obtain ⟨hmem, hndr⟩ := List.nodup_cons.mp (by rw [List.map_cons] at hnd; exact hnd)
      have hrestne : ∀ y ∈ rest, y.id ≠ (mkAnalyzed m).id := by
        intro y hy he
        exact hmem (by
          have : y.id = m.id := he
          exact this ▸ List.mem_map_of_mem _ hy)
      have h1 := dbPut_any_self db (mkAnalyzed m)
      have h2 := dbPut_all_self db (mkAnalyzed m)
      obtain ⟨h2a, h2b⟩ := markAnalyzedDB_pres (mkAnalyzed m).id (mkAnalyzed m) rest
        (dbPut db (mkAnalyzed m)) hrestne h1 h2
      have habs : dbPut (markAnalyzedDB (dbPut db (mkAnalyzed m)) rest) (mkAnalyzed m)
          = markAnalyzedDB (dbPut db (mkAnalyzed m)) rest :=
        dbPut_absorb _ _ h2a h2b
      rw [markAnalyzedDB_cons, markAnalyzedDB_cons, habs]
      exact ih (dbPut db (mkAnalyzed m)) hndr

theorem markAnalyzedState_idem (store toMark : List LearningMaterial) :
    markAnalyzedState (markAnalyzedState store toMark) toMark
      = markAnalyzedState store toMark := by
  simp only [markAnalyzedState, List.map_map]
  refine List.map_congr_left ?_
  intro m _
  by_cases h : toMark.any (fun tm => tm.id = m.id)
  · simp [Function.comp, h, mkAnalyzed]
  · simp [Function.comp, h]

theorem processFiles_local_cloudOps (urlOf idOf : MFile → String) :
    ∀ (files : List MFile) (acc : ProcessResult),
      (files.foldl (processOneFile false urlOf idOf) acc).cloudOps = acc.cloudOps := by
  intro files
  induction files with
  | nil => intro acc; rfl
  | cons f rest ih =>
      intro acc
      have hstep : (processOneFile false urlOf idOf acc f).cloudOps = acc.cloudOps := by
        by_cases h : f.size > 15 * 1024 * 1024 <;> simp [processOneFile, h]
      calc ((f :: rest).foldl (processOneFile false urlOf idOf) acc).cloudOps
          = (rest.foldl (processOneFile false urlOf idOf)
              (processOneFile false urlOf idOf acc f)).cloudOps := rfl
        _ = (processOneFile false urlOf idOf acc f).cloudOps := ih _
        _ = acc.cloudOps := hstep

/-! ## Claim theorems -/

/-- C3: whenever the Cloud Mirror is not configured, every material write
path (upload/save via `processFiles`, delete via `removeMaterial`,
mark-analyzed via `markMaterialsAsAnalyzed`) operates only on the Local
Document Store and issues no Cloud Mirror operation at all. -/
theorem c3_local_mode_no_cloud_writes
    (urlOf idOf : MFile → String) (store s db t : List LearningMaterial)
    (files : List MFile) (confirm : Bool) (id url : String) :
    (processFiles false urlOf idOf store files).cloudOps = [] ∧
    (removeMaterial false confirm s id url).2 = [] ∧
    (markMaterialsAsAnalyzed false s db t).2 = [] := by
  refine ⟨?_, ?_, ?_⟩
  · simpa using processFiles_local_cloudOps urlOf idOf files ⟨store, [], [], []⟩
  · cases confirm <;> simp [removeMaterial]
  · simp [markMaterialsAsAnalyzed]

/-- C9: with the Cloud Mirror configured, `processFiles` performs no size
pre-check at all — any file, of any size, is uploaded (one `uploadBlob`
and one `addDoc`, never an alert), while in the local branch the 15MB
rejection alert appears exactly for files above 15MB. -/
theorem c9_cloud_upload_no_size_check
    (urlOf idOf : MFile → String) (store : List LearningMaterial) (f : MFile) :
    processFiles true urlOf idOf store [f] =
      ⟨store,
        [⟨"temp_" ++ idOf f, fileKind f.type, f.name, urlOf f, f.type, false⟩],
        [CloudOp.uploadBlob f,
          CloudOp.addDoc ⟨f.name, fileKind f.type, urlOf f, f.type, false⟩],
        []⟩ ∧
    (processFiles false urlOf idOf store [f]).alerts =
      (if f.size > 15 * 1024 * 1024 then [sizeLimitMsg f.name] else []) := by
  constructor
  · rfl
  · by_cases h : f.size > 15 * 1024 * 1024 <;>
      simp [processFiles, processOneFile, h]

/-- C4: registration dedup is path-specific — self-registering twice with
the same phone into a list with no prior entry of that phone leaves
exactly one entry carrying it, while two manual admin-entry additions
with the same phone always append two entries. -/
theorem c4_registration_dedup_path_specific
    (regs : List Registration) (r1 r2 : Registration)
    (hp : r1.phone = r2.phone)
    (hfresh : ∀ r ∈ regs, r.phone ≠ r1.phone)
    (hn1 : r1.fullName ≠ "") (hp1 : r1.phone ≠ "")
    (hn2 : r2.fullName ≠ "") (hp2 : r2.phone ≠ "") :
    countPhone (handleRegistration (handleRegistration regs r1) r2) r1.phone = 1 ∧
    countPhone (addManualRegistration (addManualRegistration regs r1) r2) r1.phone
      = countPhone regs r1.phone + 2 ∧
    (addManualRegistration (addManualRegistration regs r1) r2).length
      = regs.length + 2 := by
  have hany1 : regs.any (fun r => r.phone = r1.phone) = false :=
    List.any_eq_false.mpr (fun r hr => by simpa using hfresh r hr)
  have e1 : handleRegistration regs r1 = regs ++ [r1] := by
    simp [handleRegistration, hany1]
  have hany2 : (regs ++ [r1]).any (fun r => r.phone = r2.phone) = true :=
    List.any_eq_true.mpr ⟨r1, by simp, by simpa using hp⟩
  have e2 : handleRegistration (regs ++ [r1]) r2 = regs ++ [r1] := by
    simp [handleRegistration, hany2]
  have hfilter : regs.filter (fun r => r.phone = r1.phone) = [] :=
    List.filter_eq_nil_iff.mpr (fun r hr => by simpa using hfresh r hr)
  have em1 : addManualRegistration regs r1 = regs ++ [r1] := by
    simp [addManualRegistration, hn1, hp1]
  have em2 : addManualRegistration (regs ++ [r1]) r2 = (regs ++ [r1]) ++ [r2] := by
    simp [addManualRegistration, hn2, hp2]
  refine ⟨?_, ?_, ?_⟩
  · rw [e1, e2]
    simp [countPhone, List.filter_append, hfilter]
  · rw [em1, em2]
    simp [countPhone, List.filter_append, hp.symm]
  · rw [em1, em2]
    simp

/-- C5: the size-limit policy is path-specific — a 20MB file via the
chat-materials path in local mode is rejected with the 15MB size-limit
alert and leaves the materials store unchanged, while the same file via
the presentation path (50MB cap) is accepted without an alert and grows
the presentation store by one (given a fresh id). -/
theorem c5_size_limit_path_specific
    (urlOf idOf : MFile → String) (store : List LearningMaterial)
    (pstore : List PresentationDoc) (f : MFile) (now today : String)
    (hsize : f.size = 20 * 1024 * 1024)
    (hfresh : ∀ d ∈ pstore, d.id ≠ now) :
    (processFiles false urlOf idOf store [f]).store = store ∧
    (processFiles false urlOf idOf store [f]).alerts = [sizeLimitMsg f.name] ∧
    (presHandleFileChange f now today pstore).2 = [] ∧
    (presHandleFileChange f now today pstore).1.length = pstore.length + 1 := by
  have h15 : f.size > 15 * 1024 * 1024 := by rw [hsize]; norm_num
  have h50 : ¬ f.size > 50 * 1024 * 1024 := by rw [hsize]; norm_num
  have hany : pstore.any (fun d => d.id = now) = false :=
    List.any_eq_false.mpr (fun d hd => by simpa using hfresh d hd)
  refine ⟨?_, ?_, ?_, ?_⟩
  · simp [processFiles, processOneFile, h15]
  · simp [processFiles, processOneFile, h15]
  · simp [presHandleFileChange, h50]
  · simp [presHandleFileChange, h50, presPut, hany]

/-- C5 witness: a concrete 20MB video file, empty stores. -/
theorem c5_size_limit_path_specific_witness :
    (processFiles false (fun _ => "u") (fun _ => "i") []
        [⟨"big.mp4", "video/mp4", 20 * 1024 * 1024, "d"⟩]).store = [] ∧
    (processFiles false (fun _ => "u") (fun _ => "i") []
        [⟨"big.mp4", "video/mp4", 20 * 1024 * 1024, "d"⟩]).alerts
      = [sizeLimitMsg "big.mp4"] ∧
    (presHandleFileChange ⟨"big.mp4", "video/mp4", 20 * 1024 * 1024, "d"⟩
        "1700" "date" []).2 = [] ∧
    (presHandleFileChange ⟨"big.mp4", "video/mp4", 20 * 1024 * 1024, "d"⟩
        "1700" "date" []).1.length = 0 + 1 := by
  exact c5_size_limit_path_specific (fun _ => "u") (fun _ => "i") [] []
    ⟨"big.mp4", "video/mp4", 20 * 1024 * 1024, "d"⟩ "1700" "date" rfl
    (by intro d hd; cases hd)

/-- C4 witness: two self-registrations and two manual additions with the
same phone, starting from the empty list. -/
theorem c4_registration_dedup_path_specific_witness :
    countPhone (handleRegistration (handleRegistration []
        ⟨"1", "d", "Alice", "a@x", "0501", "beginner", "pending"⟩)
        ⟨"2", "d", "Alice B", "a2@x", "0501", "beginner", "pending"⟩) "0501" = 1 ∧
    countPhone (addManualRegistration (addManualRegistration []
        ⟨"1", "d", "Alice", "a@x", "0501", "beginner", "pending"⟩)
        ⟨"2", "d", "Alice B", "a2@x", "0501", "beginner", "pending"⟩) "0501"
      = countPhone [] "0501" + 2 ∧
    (addManualRegistration (addManualRegistration []
        ⟨"1", "d", "Alice", "a@x", "0501", "beginner", "pending"⟩)
        ⟨"2", "d", "Alice B", "a2@x", "0501", "beginner", "pending"⟩).length
      = List.length ([] : List Registration) + 2 := by
  exact c4_registration_dedup_path_specific []
    ⟨"1", "d", "Alice", "a@x", "0501", "beginner", "pending"⟩
    ⟨"2", "d", "Alice B", "a2@x", "0501", "beginner", "pending"⟩
    rfl (by intro r hr; cases hr) (by decide) (by decide) (by decide) (by decide)

/-- C6: cloud material deletion removes the document record first and
regardless of a blob-delete failure; a failing blob delete (for a
firebasestorage url) is only logged — the caller still gets the state
with the record removed and the blobs untouched — while a successful one
removes the blob. -/
theorem c6_cloud_delete_best_effort
    (st : CloudState) (id : String) (url : Option String) (fails : Bool) :
    (deleteMaterialFromCloud st id url fails).1.docs
        = st.docs.filter (fun d => d.id ≠ id) ∧
    (deleteMaterialFromCloud st id url fails).2.2.head? = some ("deleteDoc " ++ id) ∧
    (∀ u, url = some u → strContains u "firebasestorage" = true → fails = true →
      (deleteMaterialFromCloud st id url fails).2.1
          = ["Error deleting file from storage:"] ∧
      (deleteMaterialFromCloud st id url fails).1.blobs = st.blobs) ∧
    (∀ u, url = some u → strContains u "firebasestorage" = true → fails = false →
      (deleteMaterialFromCloud st id url fails).1.blobs
        = st.blobs.filter (fun x => x ≠ u)) := by
  refine ⟨?_, ?_, ?_, ?_⟩
  · rcases url with _ | u
    · rfl
    · by_cases hct : strContains u "firebasestorage" <;> cases fails <;>
        simp [deleteMaterialFromCloud, hct]
  · rcases url with _ | u
    · rfl
    · by_cases hct : strContains u "firebasestorage" <;> cases fails <;>
        simp [deleteMaterialFromCloud, hct]
  · intro u h hc hf
    subst h; subst hf
    simp [deleteMaterialFromCloud, hc]
  · intro u h hc hf
    subst h; subst hf
    simp [deleteMaterialFromCloud, hc]

/-- C6 witness: one cloud document backed by a firebasestorage blob whose
blob delete fails — the record is still removed, the failure only logged. -/
theorem c6_cloud_delete_best_effort_witness :
    (deleteMaterialFromCloud
        ⟨[⟨"d1", ⟨"n", "image", "https://firebasestorage/app/f1", "image/png", false⟩⟩],
          ["https://firebasestorage/app/f1"]⟩
        "d1" (some "https://firebasestorage/app/f1") true).1.docs = [] ∧
    (deleteMaterialFromCloud
        ⟨[⟨"d1", ⟨"n", "image", "https://firebasestorage/app/f1", "image/png", false⟩⟩],
          ["https://firebasestorage/app/f1"]⟩
        "d1" (some "https://firebasestorage/app/f1") true).2.1
      = ["Error deleting file from storage:"] ∧
    (deleteMaterialFromCloud
        ⟨[⟨"d1", ⟨"n", "image", "https://firebasestorage/app/f1", "image/png", false⟩⟩],
          ["https://firebasestorage/app/f1"]⟩
        "d1" (some "https://firebasestorage/app/f1") true).1.blobs
      = ["https://firebasestorage/app/f1"] := by
  have h := c6_cloud_delete_best_effort
    ⟨[⟨"d1", ⟨"n", "image", "https://firebasestorage/app/f1", "image/png", false⟩⟩],
      ["https://firebasestorage/app/f1"]⟩
    "d1" (some "https://firebasestorage/app/f1") true
  have h3 := h.2.2.1 "https://firebasestorage/app/f1" rfl (by decide) rfl
  exact ⟨h.1.trans (by decide), h3.1, h3.2⟩

/-- Relates a list to its image under a pointwise-related map; used to
state the exact per-element effect of `markAnalyzedState`. -/
theorem forall2_map_self {α : Type} (R : α → α → Prop) (g : α → α) :
    ∀ (l : List α), (∀ a ∈ l, R a (g a)) → List.Forall₂ R l (l.map g) := by
  intro l
  induction l with
  | nil => intro _; exact List.Forall₂.nil
  | cons a rest ih =>
      intro h
      exact List.Forall₂.cons (h a (by simp)) (ih (fun x hx => h x (by simp [hx])))

/-- C7: `isAnalyzed` is monotone.  (1) the local mark operation maps each
stored material to one with the same id and payload whose flag is the old
value OR-ed with membership in the marked set — so it only ever raises
the flag; (2) marking twice equals marking once on the React state;
(3) likewise on the IndexedDB store (for distinct marked ids); (4) the
cloud branch only ever issues `updateFlag _ true`, never `false`;
(5) marking already-analyzed materials issues no cloud update at all. -/
theorem c7_isAnalyzed_monotone
    (store db toMark : List LearningMaterial) :
    List.Forall₂
      (fun m w => w.id = m.id ∧ w.type = m.type ∧ w.name = m.name ∧
        w.content = m.content ∧ w.mimeType = m.mimeType ∧
        w.isAnalyzed = (m.isAnalyzed || toMark.any (fun tm => tm.id = m.id)))
      store (markAnalyzedState store toMark) ∧
    markAnalyzedState (markAnalyzedState store toMark) toMark
      = markAnalyzedState store toMark ∧
    ((toMark.map (fun m => m.id)).Nodup →
      markAnalyzedDB (markAnalyzedDB db toMark) toMark = markAnalyzedDB db toMark) ∧
    (∀ op ∈ markAnalyzedCloudOps toMark, ∃ i, op = CloudOp.updateFlag i true) ∧
    ((∀ m ∈ toMark, m.isAnalyzed = true) → markAnalyzedCloudOps toMark = []) := by
  refine ⟨?_, markAnalyzedState_idem store toMark,
    fun h => markAnalyzedDB_idem toMark db h, ?_, ?_⟩
  · apply forall2_map_self
    intro m _
    by_cases h : toMark.any (fun tm => tm.id = m.id) <;>
      simp [h, mkAnalyzed]
  · intro op hop
    obtain ⟨m, _, rfl⟩ := List.mem_map.mp hop
    exact ⟨m.id, rfl⟩
  · intro h
    have hf : toMark.filter (fun m => !m.isAnalyzed) = [] :=
      List.filter_eq_nil_iff.mpr (fun m hm => by simp [h m hm])
    simp [markAnalyzedCloudOps, hf]

/-- C7 witness: one already-analyzed material marked a second time — the
DB pass is a no-op and the cloud pass issues no update. -/
theorem c7_isAnalyzed_monotone_witness :
    markAnalyzedDB (markAnalyzedDB [] [⟨"m1", "text", "n", "c", "", true⟩])
        [⟨"m1", "text", "n", "c", "", true⟩]
      = markAnalyzedDB [] [⟨"m1", "text", "n", "c", "", true⟩] ∧
    markAnalyzedCloudOps [⟨"m1", "text", "n", "c", "", true⟩] = [] := by
  have h := c7_isAnalyzed_monotone [⟨"m1", "text", "n", "c", "", true⟩] []
    [⟨"m1", "text", "n", "c", "", true⟩]
  exact ⟨h.2.2.1 (by decide), h.2.2.2.2 (by decide)⟩

/-! ## Import flag lemmas -/

theorem condSet_none (flags : FlagStore) (k : String) : condSet flags k none = flags := rfl

theorem getItem_handleImportFlags_role (flags : FlagStore) (b : SyncBundle) :
    getItem (handleImportFlags flags b) "prolens_user_role" = some "student" := by
  unfold handleImportFlags
  exact getItem_setItem_self _ _ _

theorem getItem_handleImportFlags_of_ne (flags : FlagStore) (b : SyncBundle) (k : String)
    (h1 : k ≠ "prolens_student_profile") (h2 : k ≠ "prolens_messages")
    (h3 : k ≠ "prolens_completed_topics") (h4 : k ≠ "prolens_my_registration")
    (h5 : k ≠ "prolens_user_role") :
    getItem (handleImportFlags flags b) k = getItem flags k := by
  unfold handleImportFlags
  rw [getItem_setItem_other _ "prolens_user_role" "student" k h5,
      getItem_condSet_other _ "prolens_my_registration" k _ h4,
      getItem_condSet_other _ "prolens_completed_topics" k _ h3,
      getItem_condSet_other _ "prolens_messages" k _ h2,
      getItem_condSet_other _ "prolens_student_profile" k _ h1]

theorem getItem_handleImportFlags_profile (flags : FlagStore) (b : SyncBundle)
    (hp : b.profile = none) :
    getItem (handleImportFlags flags b) "prolens_student_profile"
      = getItem flags "prolens_student_profile" := by
  unfold handleImportFlags
  rw [hp, condSet_none,
      getItem_setItem_other _ "prolens_user_role" "student" _ (by decide),
      getItem_condSet_other _ "prolens_my_registration" _ _ (by decide),
      getItem_condSet_other _ "prolens_completed_topics" _ _ (by decide),
      getItem_condSet_other _ "prolens_messages" _ _ (by decide)]

theorem getItem_handleImportFlags_messages (flags : FlagStore) (b : SyncBundle)
    (hm : b.messages = none) :
    getItem (handleImportFlags flags b) "prolens_messages"
      = getItem flags "prolens_messages" := by
  unfold handleImportFlags
  rw [hm, condSet_none,
      getItem_setItem_other _ "prolens_user_role" "student" _ (by decide),
      getItem_condSet_other _ "prolens_my_registration" _ _ (by decide),
      getItem_condSet_other _ "prolens_completed_topics" _ _ (by decide),
      getItem_condSet_other _ "prolens_student_profile" _ _ (by decide)]

theorem getItem_handleImportFlags_completed (flags : FlagStore) (b : SyncBundle)
    (hc : b.completedTopics = none) :
    getItem (handleImportFlags flags b) "prolens_completed_topics"
      = getItem flags "prolens_completed_topics" := by
  unfold handleImportFlags
  rw [hc, condSet_none,
      getItem_setItem_other _ "prolens_user_role" "student" _ (by decide),
      getItem_condSet_other _ "prolens_my_registration" _ _ (by decide),
      getItem_condSet_other _ "prolens_messages" _ _ (by decide),
      getItem_condSet_other _ "prolens_student_profile" _ _ (by decide)]

theorem getItem_handleImportFlags_myreg (flags : FlagStore) (b : SyncBundle)
    (hr : b.myRegistration = none) :
    getItem (handleImportFlags flags b) "prolens_my_registration"
      = getItem flags "prolens_my_registration" := by
  unfold handleImportFlags
  rw [hr, condSet_none,
      getItem_setItem_other _ "prolens_user_role" "student" _ (by decide),
      getItem_condSet_other _ "prolens_completed_topics" _ _ (by decide),
      getItem_condSet_other _ "prolens_messages" _ _ (by decide),
      getItem_condSet_other _ "prolens_student_profile" _ _ (by decide)]

theorem condSet_roundtrip_pointwise (flags fl : FlagStore) (key : String)
    (h : ∀ x, getItem fl x = getItem flags x) :
    ∀ x, getItem (condSet fl key (getItem flags key)) x = getItem flags x := by
  intro x
  rw [← h key, getItem_condSet_roundtrip, h x]

theorem getItem_handleImportFlags_export (flags : FlagStore)
    (store : List LearningMaterial) (k : String) (hk : k ≠ "prolens_user_role") :
    getItem (handleImportFlags flags (handleExport flags store)) k
      = getItem flags k := by
  have e1 := condSet_roundtrip_pointwise flags flags "prolens_student_profile"
    (fun x => rfl)
  have e2 := condSet_roundtrip_pointwise flags _ "prolens_messages" e1
  have e3 := condSet_roundtrip_pointwise flags _ "prolens_completed_topics" e2
  have e4 := condSet_roundtrip_pointwise flags _ "prolens_my_registration" e3
  calc getItem (handleImportFlags flags (handleExport flags store)) k
      = getItem (condSet (condSet (condSet (condSet flags
          "prolens_student_profile" (getItem flags "prolens_student_profile"))
          "prolens_messages" (getItem flags "prolens_messages"))
          "prolens_completed_topics" (getItem flags "prolens_completed_topics"))
          "prolens_my_registration" (getItem flags "prolens_my_registration")) k :=
        getItem_setItem_other _ "prolens_user_role" "student" k hk
    _ = getItem flags k := e4 k

theorem handleImportMaterials_replaces (mats : Option (List LearningMaterial))
    (h : ((mats.getD []).map (fun m => m.id)).Nodup) :
    handleImportMaterials mats = mats.getD [] := by
  rcases mats with _ | l
  · rfl
  · exact handleImportMaterials_eq l (by simpa using h)

theorem handleImportBackupMaterials_eq_import (mats : Option (List LearningMaterial)) :
    handleImportBackupMaterials mats = handleImportMaterials mats := rfl

theorem handleImportBackupFlags_eq_none (flags : FlagStore) (bb : BackupBundle)
    (hr : bb.registrations = none) :
    handleImportBackupFlags flags bb =
      condSet (condSet (condSet flags "prolens_announcement" bb.announcement)
        "prolens_messages" bb.messages)
        "prolens_completed_topics" bb.completedTopics := by
  unfold handleImportBackupFlags
  rw [hr]

theorem handleImportBackupFlags_eq_some (flags : FlagStore) (bb : BackupBundle)
    (regs : List Registration) (hr : bb.registrations = some regs) :
    handleImportBackupFlags flags bb =
      setItem (condSet (condSet (condSet flags "prolens_announcement" bb.announcement)
        "prolens_messages" bb.messages)
        "prolens_completed_topics" bb.completedTopics)
        "prolens_registrations" (serializeRegs regs) := by
  unfold handleImportBackupFlags
  rw [hr]

theorem getItem_handleImportBackupFlags_announcement (flags : FlagStore)
    (bb : BackupBundle) (h : bb.announcement = none) :
    getItem (handleImportBackupFlags flags bb) "prolens_announcement"
      = getItem flags "prolens_announcement" := by
  rcases hreg : bb.registrations with _ | regs
  · rw [handleImportBackupFlags_eq_none flags bb hreg, h, condSet_none,
        getItem_condSet_other _ "prolens_completed_topics" _ _ (by decide),
        getItem_condSet_other _ "prolens_messages" _ _ (by decide)]
  · rw [handleImportBackupFlags_eq_some flags bb regs hreg, h, condSet_none,
        getItem_setItem_other _ "prolens_registrations" _ _ (by decide),
        getItem_condSet_other _ "prolens_completed_topics" _ _ (by decide),
        getItem_condSet_other _ "prolens_messages" _ _ (by decide)]

theorem getItem_handleImportBackupFlags_messages (flags : FlagStore)
    (bb : BackupBundle) (h : bb.messages = none) :
    getItem (handleImportBackupFlags flags bb) "prolens_messages"
      = getItem flags "prolens_messages" := by
  rcases hreg : bb.registrations with _ | regs
  · rw [handleImportBackupFlags_eq_none flags bb hreg, h, condSet_none,
        getItem_condSet_other _ "prolens_completed_topics" _ _ (by decide),
        getItem_condSet_other _ "prolens_announcement" _ _ (by decide)]
  · rw [handleImportBackupFlags_eq_some flags bb regs hreg, h, condSet_none,
        getItem_setItem_other _ "prolens_registrations" _ _ (by decide),
        getItem_condSet_other _ "prolens_completed_topics" _ _ (by decide),
        getItem_condSet_other _ "prolens_announcement" _ _ (by decide)]

theorem getItem_handleImportBackupFlags_completed (flags : FlagStore)
    (bb : BackupBundle) (h : bb.completedTopics = none) :
    getItem (handleImportBackupFlags flags bb) "prolens_completed_topics"
      = getItem flags "prolens_completed_topics" := by
  rcases hreg : bb.registrations with _ | regs
  · rw [handleImportBackupFlags_eq_none flags bb hreg, h, condSet_none,
        getItem_condSet_other _ "prolens_messages" _ _ (by decide),
        getItem_condSet_other _ "prolens_announcement" _ _ (by decide)]
  · rw [handleImportBackupFlags_eq_some flags bb regs hreg, h, condSet_none,
        getItem_setItem_other _ "prolens_registrations" _ _ (by decide),
        getItem_condSet_other _ "prolens_messages" _ _ (by decide),
        getItem_condSet_other _ "prolens_announcement" _ _ (by decide)]

theorem getItem_handleImportBackupFlags_registrations (flags : FlagStore)
    (bb : BackupBundle) (h : bb.registrations = none) :
    getItem (handleImportBackupFlags flags bb) "prolens_registrations"
      = getItem flags "prolens_registrations" := by
  rw [handleImportBackupFlags_eq_none flags bb h,
      getItem_condSet_other _ "prolens_completed_topics" _ _ (by decide),
      getItem_condSet_other _ "prolens_messages" _ _ (by decide),
      getItem_condSet_other _ "prolens_announcement" _ _ (by decide)]

/-- C1 counterexample: a sync bundle whose flag fields are all absent.
The flag key `prolens_user_role` has no corresponding bundle field, yet
the student-sync import does not keep its previous value `admin` — it is
overwritten to `student`, contradicting the claim that flag keys whose
field is absent from the bundle keep their previous values. -/
theorem c1_role_overwrite_counterexample :
    getItem [("prolens_user_role", "admin")] "prolens_user_role" = some "admin" ∧
    getItem (handleImportFlags [("prolens_user_role", "admin")]
        ⟨none, none, none, none, some []⟩) "prolens_user_role"
      = some "student" := by
  constructor <;> rfl

/-- C1 (amended): import fully replaces the document store with the
bundle's materials (empty or absent list leaves it empty); on both import
paths every flag key whose bundle field is absent keeps its previous
value — except that the student-sync import additionally always writes
`prolens_user_role := "student"`, a key with no bundle field at all.  The
admin backup import overwrites only keys whose field is present. -/
theorem c1_import_replacement_amended
    (flags : FlagStore) (b : SyncBundle) (bb : BackupBundle) :
    (((b.materials.getD []).map (fun m => m.id)).Nodup →
      handleImportMaterials b.materials = b.materials.getD []) ∧
    (b.materials = none → handleImportMaterials b.materials = []) ∧
    (b.profile = none →
      getItem (handleImportFlags flags b) "prolens_student_profile"
        = getItem flags "prolens_student_profile") ∧
    (b.messages = none →
      getItem (handleImportFlags flags b) "prolens_messages"
        = getItem flags "prolens_messages") ∧
    (b.completedTopics = none →
      getItem (handleImportFlags flags b) "prolens_completed_topics"
        = getItem flags "prolens_completed_topics") ∧
    (b.myRegistration = none →
      getItem (handleImportFlags flags b) "prolens_my_registration"
        = getItem flags "prolens_my_registration") ∧
    getItem (handleImportFlags flags b) "prolens_user_role" = some "student" ∧
    (((bb.materials.getD []).map (fun m => m.id)).Nodup →
      handleImportBackupMaterials bb.materials = bb.materials.getD []) ∧
    (bb.announcement = none →
      getItem (handleImportBackupFlags flags bb) "prolens_announcement"
        = getItem flags "prolens_announcement") ∧
    (bb.messages = none →
      getItem (handleImportBackupFlags flags bb) "prolens_messages"
        = getItem flags "prolens_messages") ∧
    (bb.completedTopics = none →
      getItem (handleImportBackupFlags flags bb) "prolens_completed_topics"
        = getItem flags "prolens_completed_topics") ∧
    (bb.registrations = none →
      getItem (handleImportBackupFlags flags bb) "prolens_registrations"
        = getItem flags "prolens_registrations") := by
  refine ⟨handleImportMaterials_replaces b.materials,
    ?_,
    getItem_handleImportFlags_profile flags b,
    getItem_handleImportFlags_messages flags b,
    getItem_handleImportFlags_completed flags b,
    getItem_handleImportFlags_myreg flags b,
    getItem_handleImportFlags_role flags b,
    ?_,
    getItem_handleImportBackupFlags_announcement flags bb,
    getItem_handleImportBackupFlags_messages flags bb,
    getItem_handleImportBackupFlags_completed flags bb,
    getItem_handleImportBackupFlags_registrations flags bb⟩
  · intro h; rw [h]; rfl
  · intro h
    rw [handleImportBackupMaterials_eq_import]
    exact handleImportMaterials_replaces bb.materials h

/-- C1 witness: a sync bundle carrying only materials and a backup bundle
carrying nothing, over concrete flags. -/
theorem c1_import_replacement_amended_witness :
    handleImportMaterials (some [⟨"m1", "text", "a", "b", "", false⟩])
      = [⟨"m1", "text", "a", "b", "", false⟩] ∧
    handleImportMaterials (none : Option (List LearningMaterial)) = [] ∧
    getItem (handleImportFlags [("prolens_messages", "old")]
        ⟨none, none, none, none, some [⟨"m1", "text", "a", "b", "", false⟩]⟩)
        "prolens_messages" = getItem [("prolens_messages", "old")] "prolens_messages" ∧
    getItem (handleImportFlags [("prolens_messages", "old")]
        ⟨none, none, none, none, some [⟨"m1", "text", "a", "b", "", false⟩]⟩)
        "prolens_user_role" = some "student" ∧
    getItem (handleImportBackupFlags [("prolens_messages", "old")]
        ⟨none, none, none, none, none⟩) "prolens_messages"
      = getItem [("prolens_messages", "old")] "prolens_messages" := by
  have h := c1_import_replacement_amended [("prolens_messages", "old")]
    ⟨none, none, none, none, some [⟨"m1", "text", "a", "b", "", false⟩]⟩
    ⟨none, none, none, none, none⟩
  refine ⟨h.1 (by decide), ?_, h.2.2.2.1 rfl, h.2.2.2.2.2.2.1, h.2.2.2.2.2.2.2.2.2.1 rfl⟩
  · exact c1_import_replacement_amended [] ⟨none, none, none, none, none⟩
      ⟨none, none, none, none, none⟩ |>.2.1 rfl

/-- C2 counterexample: in a session whose stored role is `admin`,
exporting and re-importing the produced bundle changes the read of
`prolens_user_role` from `admin` to `student` — the round trip is not the
identity on all flag reads. -/
theorem c2_roundtrip_counterexample :
    getItem [("prolens_user_role", "admin")] "prolens_user_role" = some "admin" ∧
    getItem (handleImportFlags [("prolens_user_role", "admin")]
        (handleExport [("prolens_user_role", "admin")] [])) "prolens_user_role"
      = some "student" := by
  constructor <;> rfl

/-- C2 (amended): export followed by import in the same session restores
the document store exactly (given distinct ids, as IndexedDB guarantees)
and leaves every flag read unchanged except `prolens_user_role`, which
the import unconditionally sets to `student`; the round trip is the full
identity exactly when the stored role was already `student`. -/
theorem c2_export_import_roundtrip_amended
    (flags : FlagStore) (store : List LearningMaterial)
    (hnd : (store.map (fun m => m.id)).Nodup) :
    handleImportMaterials (handleExport flags store).materials = store ∧
    (∀ k, k ≠ "prolens_user_role" →
      getItem (handleImportFlags flags (handleExport flags store)) k
        = getItem flags k) ∧
    getItem (handleImportFlags flags (handleExport flags store)) "prolens_user_role"
      = some "student" := by
  refine ⟨?_, fun k hk => getItem_handleImportFlags_export flags store k hk,
    getItem_handleImportFlags_role _ _⟩
  show handleImportMaterials (some store) = store
  exact handleImportMaterials_eq store hnd

/-- C2 witness: a concrete session with a stored profile, one material
and role `student`. -/
theorem c2_export_import_roundtrip_amended_witness :
    handleImportMaterials
        (handleExport [("prolens_user_role", "student"), ("prolens_messages", "hi")]
          [⟨"m1", "text", "a", "b", "", true⟩]).materials
      = [⟨"m1", "text", "a", "b", "", true⟩] ∧
    getItem (handleImportFlags [("prolens_user_role", "student"), ("prolens_messages", "hi")]
        (handleExport [("prolens_user_role", "student"), ("prolens_messages", "hi")]
          [⟨"m1", "text", "a", "b", "", true⟩])) "prolens_messages"
      = getItem [("prolens_user_role", "student"), ("prolens_messages", "hi")]
          "prolens_messages" ∧
    getItem (handleImportFlags [("prolens_user_role", "student"), ("prolens_messages", "hi")]
        (handleExport [("prolens_user_role", "student"), ("prolens_messages", "hi")]
          [⟨"m1", "text", "a", "b", "", true⟩])) "prolens_user_role"
      = some "student" := by
  have h := c2_export_import_roundtrip_amended
    [("prolens_user_role", "student"), ("prolens_messages", "hi")]
    [⟨"m1", "text", "a", "b", "", true⟩] (by decide)
  exact ⟨h.1, h.2.1 "prolens_messages" (by decide), h.2.2⟩

/-- C10: a successful student-sync import always ends with the session
role read as `student`, whatever the bundle and whatever was stored
before; every flag key other than the five targeted by the import is
read unchanged, and each of the four conditional keys is unchanged when
its bundle field is absent. -/
theorem c10_role_always_student (flags : FlagStore) (b : SyncBundle) (k : String)
    (h1 : k ≠ "prolens_student_profile") (h2 : k ≠ "prolens_messages")
    (h3 : k ≠ "prolens_completed_topics") (h4 : k ≠ "prolens_my_registration")
    (h5 : k ≠ "prolens_user_role") :
    getItem (handleImportFlags flags b) "prolens_user_role" = some "student" ∧
    getItem (handleImportFlags flags b) k = getItem flags k ∧
    (b.profile = none →
      getItem (handleImportFlags flags b) "prolens_student_profile"
        = getItem flags "prolens_student_profile") ∧
    (b.messages = none →
      getItem (handleImportFlags flags b) "prolens_messages"
        = getItem flags "prolens_messages") ∧
    (b.completedTopics = none →
      getItem (handleImportFlags flags b) "prolens_completed_topics"
        = getItem flags "prolens_completed_topics") ∧
    (b.myRegistration = none →
      getItem (handleImportFlags flags b) "prolens_my_registration"
        = getItem flags "prolens_my_registration") :=
  ⟨getItem_handleImportFlags_role flags b,
    getItem_handleImportFlags_of_ne flags b k h1 h2 h3 h4 h5,
    getItem_handleImportFlags_profile flags b,
    getItem_handleImportFlags_messages flags b,
    getItem_handleImportFlags_completed flags b,
    getItem_handleImportFlags_myreg flags b⟩

/-- C10 witness: previous role `admin`, a bundle with no role field, and
an unrelated key `prolens_announcement`. -/
theorem c10_role_always_student_witness :
    getItem (handleImportFlags
        [("prolens_user_role", "admin"), ("prolens_announcement", "hello")]
        ⟨none, none, none, none, some []⟩) "prolens_user_role" = some "student" ∧
    getItem (handleImportFlags
        [("prolens_user_role", "admin"), ("prolens_announcement", "hello")]
        ⟨none, none, none, none, some []⟩) "prolens_announcement"
      = getItem [("prolens_user_role", "admin"), ("prolens_announcement", "hello")]
          "prolens_announcement" ∧
    getItem (handleImportFlags
        [("prolens_user_role", "admin"), ("prolens_announcement", "hello")]
        ⟨none, none, none, none, some []⟩) "prolens_messages"
      = getItem [("prolens_user_role", "admin"), ("prolens_announcement", "hello")]
          "prolens_messages" := by
  have h := c10_role_always_student
    [("prolens_user_role", "admin"), ("prolens_announcement", "hello")]
    ⟨none, none, none, none, some []⟩ "prolens_announcement"
    (by decide) (by decide) (by decide) (by decide) (by decide)
  exact ⟨h.1, h.2.1, h.2.2.2.1 rfl⟩

/-- C8 counterexample: an import whose only material fails its `put`.
The claim says a per-item write failure "reports a single user-facing
failure message"; the code issues the puts without awaiting them and
installs no transaction error handler, so no alert at all is produced
(and the completion reload indeed never fires). -/
theorem c8_put_failure_counterexample :
    (handleImportRun [] [⟨"m0", "text", "a", "b", "", false⟩]
        (some ⟨none, none, none, none, some [⟨"m1", "text", "c", "d", "", false⟩]⟩)
        (fun _ => true)).2.2.1 = [] ∧
    (handleImportRun [] [⟨"m0", "text", "a", "b", "", false⟩]
        (some ⟨none, none, none, none, some [⟨"m1", "text", "c", "d", "", false⟩]⟩)
        (fun _ => true)).2.2.2 = false := by
  constructor <;> rfl

/-- C8 (amended): malformed JSON aborts before any write with a single
user-facing failure message and no reload.  A per-item put failure also
prevents the completion reload, but produces no user-facing message, and
because the clear and all puts share one readwrite IndexedDB transaction
the abort rolls them all back (the document store keeps its old
contents rather than partial rows).  When every put succeeds the
completion reload fires. -/
theorem c8_import_error_handling_amended
    (flags : FlagStore) (store : List LearningMaterial)
    (pf : LearningMaterial → Bool) (b : SyncBundle) :
    handleImportRun flags store none pf
      = (flags, store, ["קובץ הסנכרון אינו תקין."], false) ∧
    ((b.materials.getD []).all (fun m => !pf m) = false →
      (handleImportRun flags store (some b) pf).2.1 = store ∧
      (handleImportRun flags store (some b) pf).2.2.1 = [] ∧
      (handleImportRun flags store (some b) pf).2.2.2 = false) ∧
    ((b.materials.getD []).all (fun m => !pf m) = true →
      (handleImportRun flags store (some b) pf).2.2.2 = true) := by
  refine ⟨rfl, ?_, ?_⟩
  · intro h
    simp [handleImportRun, h]
  · intro h
    simp [handleImportRun, h]

/-- C8 witness: malformed JSON on a one-row store, plus a failing put and
a succeeding import on the same concrete bundle. -/
theorem c8_import_error_handling_amended_witness :
    handleImportRun [] [⟨"m0", "text", "a", "b", "", false⟩] none (fun _ => false)
      = ([], [⟨"m0", "text", "a", "b", "", false⟩],
          ["קובץ הסנכרון אינו תקין."], false) ∧
    (handleImportRun [] [⟨"m0", "text", "a", "b", "", false⟩]
        (some ⟨none, none, none, none, some [⟨"m1", "text", "c", "d", "", false⟩]⟩)
        (fun _ => true)).2.1 = [⟨"m0", "text", "a", "b", "", false⟩] ∧
    (handleImportRun [] [⟨"m0", "text", "a", "b", "", false⟩]
        (some ⟨none, none, none, none, some [⟨"m1", "text", "c", "d", "", false⟩]⟩)
        (fun _ => false)).2.2.2 = true := by
  have h1 := c8_import_error_handling_amended [] [⟨"m0", "text", "a", "b", "", false⟩]
    (fun _ => true) ⟨none, none, none, none, some [⟨"m1", "text", "c", "d", "", false⟩]⟩
  have h2 := c8_import_error_handling_amended [] [⟨"m0", "text", "a", "b", "", false⟩]
    (fun _ => false) ⟨none, none, none, none, some [⟨"m1", "text", "c", "d", "", false⟩]⟩
  exact ⟨h2.1, (h1.2.1 rfl).1, h2.2.2 rfl⟩
